import Mathlib

/-!
Verification of the path extractor / response normalizer of the
arize-phoenix-heroku diagnostic scripts.

The development shallowly embeds two pieces of the repository:

* `transform_response` from `phoenix_response_fix.py` — the response-shape
  normalizer that backfills `text` / `message.content` on every choice and
  tags the response with the `__phoenix_processed__` sentinel;
* `extract_content_path` from `debug_api.py` (and the analogous inline
  extraction loop of `response_format_analyzer.py`) — the dotted/bracket
  path walker.

JSON values are modelled by the inductive `Json`; Python dicts are modelled
as insertion-ordered association lists with unique keys (`lookupKV` models
`d.get(k)` / `k in d`, `insertKV` models `d[k] = v`, which overwrites in
place or appends at the end, exactly as a Python dict does).

A second, heap-explicit model (`transform_responseH`) embeds the same
source function with explicit object identity and in-place mutation, in
order to express the shallow-copy / aliasing behaviour of
`response.copy()`.
-/

/-- A JSON value: the recursive variant the scripts operate on.
`obj` carries an insertion-ordered association list, modelling a Python
dict with string keys. -/
inductive Json where
  | null
  | bool (b : Bool)
  | num (n : Int)
  | str (s : String)
  | arr (elems : List Json)
  | obj (fields : List (String × Json))

/-- `isinstance(v, dict)` -/
def Json.isObj : Json → Bool
  | .obj _ => true
  | _ => false

/-- `v is None` -/
def Json.isNull : Json → Bool
  | .null => true
  | _ => false

/-- Python truthiness of a JSON value (`bool(v)`): `None`, `False`, `0`,
`""`, `[]` and `{}` are falsy, everything else is truthy. -/
def truthy : Json → Bool
  | .null => false
  | .bool b => b
  | .num n => n != 0
  | .str s => !s.isEmpty
  | .arr xs => !xs.isEmpty
  | .obj kvs => !kvs.isEmpty

/-- `d.get(k)` on a Python dict modelled as an association list:
the value under the first occurrence of the key, if any. -/
def lookupKV : List (String × Json) → String → Option Json
  | [], _ => none
  | (k, v) :: rest, key => if k = key then some v else lookupKV rest key

/-- `k in d` -/
def hasKeyL (l : List (String × Json)) (k : String) : Bool :=
  (lookupKV l k).isSome

/-- `d[k] = v` on a Python dict: overwrite the value in place if the key is
present (keeping its position), append at the end otherwise. -/
def insertKV : List (String × Json) → String → Json → List (String × Json)
  | [], key, val => [(key, val)]
  | (k, v) :: rest, key, val =>
    if k = key then (k, val) :: rest else (k, v) :: insertKV rest key val

/-! ## The normalizer (`transform_response`, phoenix_response_fix.py) -/

/-- The sentinel key the normalizer tags processed responses with. -/
def sentinel : String := "__phoenix_processed__"

/-- The guard of the first branch of the per-choice loop:
`"message" in choice and isinstance(choice["message"], dict) and
"content" in choice["message"]`. -/
def msgContentCond (cf : List (String × Json)) : Bool :=
  match lookupKV cf "message" with
  | some (.obj mf) => hasKeyL mf "content"
  | _ => false

/-- `choice["message"]["content"]`, read under `msgContentCond` (the
default is never hit when the guard holds). -/
def getMsgContent (cf : List (String × Json)) : Json :=
  match lookupKV cf "message" with
  | some (.obj mf) => (lookupKV mf "content").getD .null
  | _ => .null

/-- The body of the per-choice loop of `transform_response`
(phoenix_response_fix.py lines 67-101), as a pure transformation of the
choice value.  A choice that is not a dict is skipped (`continue`) and
returned unchanged. -/
def transformChoice (c : Json) : Json :=
  match c with
  | .obj cf =>
    if msgContentCond cf then
      -- has message.content: backfill text only when absent
      if hasKeyL cf "text" then c
      else .obj (insertKV cf "text" (getMsgContent cf))
    else if hasKeyL cf "text" then
      -- has text but no well-formed message.content
      let t := (lookupKV cf "text").getD .null
      match lookupKV cf "message" with
      | some (.obj mf) =>
        -- message is a dict; the elif only fires when content is absent
        if hasKeyL mf "content" then c
        else .obj (insertKV cf "message" (.obj (insertKV mf "content" t)))
      | _ =>
        .obj (insertKV cf "message"
          (.obj [("role", .str "assistant"), ("content", t)]))
    else
      -- neither: fallback placeholder
      .obj (insertKV
        (insertKV cf "text" (.str "No content available"))
        "message"
        (.obj [("role", .str "assistant"),
               ("content", .str "No content available")]))
  | _ => c

/-- `transform_response` (phoenix_response_fix.py lines 39-109), value
semantics of the returned object.

* non-dict input or sentinel present: returned unchanged;
* otherwise the shallow copy is tagged with the sentinel;
* absent or falsy `choices`: the tagged copy is returned;
* a list of choices is processed element-wise (non-dict elements skipped);
* iterating a string or dict `choices` yields non-dict elements, all
  skipped; iterating a number or boolean raises `TypeError`, which the
  `except` handler turns into returning the original input. -/
def transform_response (r : Json) : Json :=
  match r with
  | .obj kvs =>
    if hasKeyL kvs sentinel then r
    else
      let t := insertKV kvs sentinel (.bool true)
      match lookupKV t "choices" with
      | none => .obj t
      | some c =>
        if !truthy c then .obj t
        else
          match c with
          | .arr xs => .obj (insertKV t "choices" (.arr (xs.map transformChoice)))
          | .str _ => .obj t
          | .obj _ => .obj t
          | _ => r
  | _ => r

/-! ## The path extractor (`extract_content_path`, debug_api.py) -/

/-- The exception classes the extractor's `except` clause catches; an
`err e` result models the function returning the string
`f"Error accessing path: {e}"`. -/
inductive PyExc where
  | keyError
  | indexError
  | typeError
  | attributeError
deriving DecidableEq

/-- The value returned by `extract_content_path`: either a JSON value
(`.val .null` models returning Python `None`) or the error string built
from a caught exception. -/
inductive PyResult where
  | val (j : Json)
  | err (e : PyExc)

/-- `path.replace(']', '').replace('[', '.').split('.')`
(debug_api.py line 106).  The two `replace` calls have single-character
patterns, so they are character filter/map; `split('.')` on the empty
string yields `[""]`, as in Python. -/
def splitDotAux : List Char → List Char → List String
  | [], acc => [String.mk acc.reverse]
  | c :: rest, acc =>
    if c = '.' then String.mk acc.reverse :: splitDotAux rest []
    else splitDotAux rest (c :: acc)

/-- The parts list the extractor walks. -/
def pathParts (path : String) : List String :=
  splitDotAux ((path.data.filter (fun c => c ≠ ']')).map
    (fun c => if c = '[' then '.' else c)) []

/-- `part.isdigit()`: non-empty and all digits. -/
def pyIsDigit (s : String) : Bool :=
  !s.isEmpty && s.data.all Char.isDigit

/-- `int(part)` for an all-digit string. -/
def strToNat (s : String) : Nat :=
  s.data.foldl (fun n c => 10 * n + (c.toNat - 48)) 0

/-- The loop of `extract_content_path` (debug_api.py lines 107-115).

Digit parts do `result = result[int(part)]`: indexing a list or string
(with `IndexError` past the end), `KeyError` on a dict (JSON keys are
strings, never ints), `TypeError` otherwise.  Other parts do
`result = result.get(part)` followed by `if result is None: return None`:
only dicts have `.get` (`AttributeError` otherwise), and an absent key and
a stored `None` both produce the early `None` return. -/
def extractLoop : List String → Json → PyResult
  | [], r => .val r
  | p :: ps, r =>
    if pyIsDigit p then
      match r with
      | .arr xs =>
        match xs.get? (strToNat p) with
        | some v => extractLoop ps v
        | none => .err .indexError
      | .str s =>
        match s.data.get? (strToNat p) with
        | some ch => extractLoop ps (.str (String.mk [ch]))
        | none => .err .indexError
      | .obj _ => .err .keyError
      | _ => .err .typeError
    else
      match r with
      | .obj kvs =>
        match lookupKV kvs p with
        | some v => if v.isNull then .val .null else extractLoop ps v
        | none => .val .null
      | _ => .err .attributeError

/-- `extract_content_path(data, path)` (debug_api.py lines 103-117). -/
def extract_content_path (data : Json) (path : String) : PyResult :=
  extractLoop (pathParts path) data

/-- The inline extraction loop of `response_format_analyzer.py`
(lines 151-180): same parts list, but guarded `isinstance` checks; every
failure sets `content = None` and breaks, modelled by returning `.null`. -/
def analyzerLoop : List String → Json → Json
  | [], content => content
  | p :: ps, content =>
    if pyIsDigit p then
      match content with
      | .arr xs =>
        match xs.get? (strToNat p) with
        | some v => analyzerLoop ps v
        | none => .null
      | _ => .null
    else
      match content with
      | .obj kvs =>
        match lookupKV kvs p with
        | some v => analyzerLoop ps v
        | none => .null
      | _ => .null

/-- The content extraction of `phoenix_request_analysis`
(response_format_analyzer.py). -/
def analyzerExtract (resp : Json) (path : String) : Json :=
  analyzerLoop (pathParts path) resp

/-! ## Association-list (Python dict) lemmas -/

theorem lookup_insert_self (l : List (String × Json)) (k : String) (v : Json) :
    lookupKV (insertKV l k v) k = some v := by
  induction l with
  | nil => simp [insertKV, lookupKV]
  | cons p rest ih =>
    by_cases h : p.1 = k
    · simp [insertKV, lookupKV, h]
    · simp [insertKV, lookupKV, h, ih]

theorem lookup_insert_ne (l : List (String × Json)) (k k' : String) (v : Json)
    (h : k' ≠ k) : lookupKV (insertKV l k v) k' = lookupKV l k' := by
  have h2 : k ≠ k' := Ne.symm h
  induction l with
  | nil => simp [insertKV, lookupKV, h2]
  | cons p rest ih =>
    obtain ⟨pk, pv⟩ := p
    by_cases hp : pk = k
    · subst hp
      simp [insertKV, lookupKV, h2]
    · by_cases hq : pk = k'
      · simp [insertKV, lookupKV, hp, hq, h]
      · simp [insertKV, lookupKV, hp, hq, ih]

theorem hasKey_insert_self (l : List (String × Json)) (k : String) (v : Json) :
    hasKeyL (insertKV l k v) k = true := by
  simp [hasKeyL, lookup_insert_self]

theorem hasKey_insert_ne (l : List (String × Json)) (k k' : String) (v : Json)
    (h : k' ≠ k) : hasKeyL (insertKV l k v) k' = hasKeyL l k' := by
  simp [hasKeyL, lookup_insert_ne l k k' v h]

/-! ## Normalizer shape lemmas -/

/-- A response tagged with the sentinel is returned unchanged. -/
theorem transform_of_sentinel (kvs : List (String × Json))
    (h : hasKeyL kvs sentinel = true) :
    transform_response (Json.obj kvs) = Json.obj kvs := by
  simp [transform_response, h]

/-- Every output of `transform_response` is either the input itself or an
object carrying the sentinel. -/
theorem transform_fixes (r : Json) :
    transform_response r = r ∨
    ∃ kvs, transform_response r = Json.obj kvs ∧ hasKeyL kvs sentinel = true := by
  cases r with
  | obj kvs =>
    by_cases hs : hasKeyL kvs sentinel = true
    · left; exact transform_of_sentinel kvs hs
    · rw [Bool.not_eq_true] at hs
      cases hc : lookupKV (insertKV kvs sentinel (Json.bool true)) "choices" with
      | none =>
        right
        exact ⟨insertKV kvs sentinel (Json.bool true),
          by simp [transform_response, hs, hc],
          hasKey_insert_self kvs sentinel (Json.bool true)⟩
      | some c =>
        by_cases ht : truthy c = true
        · cases c with
          | null => simp [truthy] at ht
          | bool b => left; simp [transform_response, hs, hc, ht]
          | num n => left; simp [transform_response, hs, hc, ht]
          | str s =>
            right
            exact ⟨insertKV kvs sentinel (Json.bool true),
              by simp [transform_response, hs, hc, ht],
              hasKey_insert_self kvs sentinel (Json.bool true)⟩
          | arr xs =>
            right
            refine ⟨insertKV (insertKV kvs sentinel (Json.bool true)) "choices"
              (Json.arr (xs.map transformChoice)),
              by simp [transform_response, hs, hc, ht], ?_⟩
            rw [hasKey_insert_ne _ _ _ _ (by decide : sentinel ≠ "choices")]
            exact hasKey_insert_self kvs sentinel (Json.bool true)
          | obj o =>
            right
            exact ⟨insertKV kvs sentinel (Json.bool true),
              by simp [transform_response, hs, hc, ht],
              hasKey_insert_self kvs sentinel (Json.bool true)⟩
        · rw [Bool.not_eq_true] at ht
          right
          exact ⟨insertKV kvs sentinel (Json.bool true),
            by simp [transform_response, hs, hc, ht],
            hasKey_insert_self kvs sentinel (Json.bool true)⟩
  | null => left; rfl
  | bool b => left; rfl
  | num n => left; rfl
  | str s => left; rfl
  | arr xs => left; rfl

/-! ## Observation helpers (used to separate concrete values) -/

/-- Whether a value is a dict carrying the sentinel key at top level. -/
def topHasSentinel : Json → Bool
  | .obj kvs => hasKeyL kvs sentinel
  | _ => false

/-- The string payload of a successful string extraction, if any. -/
def resStr : PyResult → Option String
  | .val (.str s) => some s
  | _ => none

/-- Whether an extraction result is the Python `None` return. -/
def isNullRes : PyResult → Bool
  | .val .null => true
  | _ => false

/-! ## Claims about the normalizer -/

/-- C1: the normalizer is idempotent — `transform_response
(transform_response r) = transform_response r` for every value `r`, and a
response already carrying the sentinel key is returned unchanged. -/
theorem C1_normalize_idempotent :
    (∀ r : Json, transform_response (transform_response r) = transform_response r) ∧
    (∀ kvs : List (String × Json), hasKeyL kvs sentinel = true →
      transform_response (Json.obj kvs) = Json.obj kvs) := by
  constructor
  · intro r
    rcases transform_fixes r with h | ⟨kvs, h1, h2⟩
    · rw [h]; exact h
    · rw [h1]; exact transform_of_sentinel kvs h2
  · exact transform_of_sentinel

/-- Witness for C1: idempotence at a concrete response, and the sentinel
short-circuit at a concrete tagged response. -/
theorem C1_witness :
    transform_response (transform_response
        (Json.obj [("choices", Json.arr [Json.obj [("text", Json.str "hi")]])]))
      = transform_response
        (Json.obj [("choices", Json.arr [Json.obj [("text", Json.str "hi")]])]) ∧
    transform_response (Json.obj [(sentinel, Json.bool true), ("choices", Json.arr [])])
      = Json.obj [(sentinel, Json.bool true), ("choices", Json.arr [])] :=
  ⟨C1_normalize_idempotent.1 _,
   C1_normalize_idempotent.2 _ rfl⟩

/-- C10: the sentinel guard tests key presence, not truth value — any
non-dict input, and any dict containing the sentinel key under any value
whatsoever (including `False`), is returned unchanged with no
normalization. -/
theorem C10_sentinel_presence_guard :
    ∀ r : Json,
      (r.isObj = false ∨ ∃ kvs, r = Json.obj kvs ∧ hasKeyL kvs sentinel = true) →
      transform_response r = r := by
  intro r h
  rcases h with h | ⟨kvs, rfl, hs⟩
  · cases r with
    | obj kvs => simp [Json.isObj] at h
    | null => rfl
    | bool b => rfl
    | num n => rfl
    | str s => rfl
    | arr xs => rfl
  · exact transform_of_sentinel kvs hs

/-- Witness for C10: a response whose sentinel key holds `False` is still
returned unchanged, as is a bare string input. -/
theorem C10_witness :
    transform_response
        (Json.obj [(sentinel, Json.bool false), ("choices", Json.arr [Json.obj [("index", Json.num 0)]])])
      = Json.obj [(sentinel, Json.bool false), ("choices", Json.arr [Json.obj [("index", Json.num 0)]])] ∧
    transform_response (Json.str "plain") = Json.str "plain" :=
  ⟨C10_sentinel_presence_guard _ (Or.inr ⟨_, rfl, rfl⟩),
   C10_sentinel_presence_guard _ (Or.inl rfl)⟩

/-- C3 counterexample: `normalize({"choices": []})` is not `{"choices": []}`
— the returned copy additionally carries the sentinel key, so the result is
not equal to the input. -/
theorem C3_counterexample :
    transform_response (Json.obj [("choices", Json.arr [])])
      ≠ Json.obj [("choices", Json.arr [])] := by
  intro h
  exact absurd (congrArg topHasSentinel h) (by decide)

/-- C3 amended: if `choices` is absent or an empty sequence, the normalizer
returns the input with exactly one field added — the sentinel
`__phoenix_processed__ = True`, appended at the end — and `choices`
untouched; in particular `normalize({"choices": []})` equals
`{"choices": [], "__phoenix_processed__": True}`. -/
theorem C3_empty_choices_amended :
    ∀ kvs : List (String × Json),
      hasKeyL kvs sentinel = false →
      (lookupKV kvs "choices" = none ∨ lookupKV kvs "choices" = some (Json.arr [])) →
      transform_response (Json.obj kvs)
        = Json.obj (insertKV kvs sentinel (Json.bool true)) := by
  intro kvs hs hc
  have hl : lookupKV (insertKV kvs sentinel (Json.bool true)) "choices"
      = lookupKV kvs "choices" :=
    lookup_insert_ne kvs sentinel "choices" (Json.bool true) (by decide)
  rcases hc with hc | hc
  · rw [hc] at hl
    simp [transform_response, hs, hl]
  · rw [hc] at hl
    simp [transform_response, hs, hl, truthy]

/-- Witness for C3: the empty-choices scenario from the spec, and a
choices-free response. -/
theorem C3_witness :
    transform_response (Json.obj [("choices", Json.arr [])])
      = Json.obj [("choices", Json.arr []), (sentinel, Json.bool true)] ∧
    transform_response (Json.obj [("id", Json.str "chatcmpl-123")])
      = Json.obj [("id", Json.str "chatcmpl-123"), (sentinel, Json.bool true)] :=
  ⟨C3_empty_choices_amended _ rfl (Or.inr rfl),
   C3_empty_choices_amended _ rfl (Or.inl rfl)⟩

/-! ## The spec's extractor, for refinement comparison -/

/-- A parsed path segment as the spec describes it (§3 PathExpression). -/
inductive Segment where
  | key (k : String)
  | idx (i : Nat)

/-- The spec's typed extraction result (§3, §7). -/
inductive ExtractionResult where
  | resolved (v : Json)
  | keyNotFound
  | indexOutOfRange
  | typeMismatch

/-- Modelled from the spec's words (§4.2 Extractor): key segments require a
Mapping and fail with `keyNotFound` on an absent key (a stored Null is a
successful resolution), index segments require a Sequence and fail with
`indexOutOfRange` past the end; anything else is `typeMismatch`.  The
source code does not implement this taxonomy; this definition exists only
to be compared with `extract_content_path`. -/
def specExtract : Json → List Segment → ExtractionResult
  | v, [] => .resolved v
  | v, .key k :: ps =>
    match v with
    | .obj kvs =>
      match lookupKV kvs k with
      | some x => specExtract x ps
      | none => .keyNotFound
    | _ => .typeMismatch
  | v, .idx i :: ps =>
    match v with
    | .arr xs =>
      match xs.get? i with
      | some x => specExtract x ps
      | none => .indexOutOfRange
    | _ => .typeMismatch

/-! ## Claims about the extractor -/

/-- Keying any non-dict value: `.get` does not exist, `AttributeError`. -/
theorem extractLoop_key_nonobj (v : Json) (k : String) (ps : List String)
    (hk : pyIsDigit k = false) (hv : v.isObj = false) :
    extractLoop (k :: ps) v = PyResult.err .attributeError := by
  cases v with
  | obj kvs => simp [Json.isObj] at hv
  | null => simp [extractLoop, hk]
  | bool b => simp [extractLoop, hk]
  | num n => simp [extractLoop, hk]
  | str s => simp [extractLoop, hk]
  | arr xs => simp [extractLoop, hk]

/-- Keying a dict without the key: `.get` returns `None`, early return. -/
theorem extractLoop_key_absent (kvs : List (String × Json)) (k : String)
    (ps : List String) (hk : pyIsDigit k = false) (hl : lookupKV kvs k = none) :
    extractLoop (k :: ps) (Json.obj kvs) = PyResult.val Json.null := by
  simp [extractLoop, hk, hl]

/-- C2 counterexample: on `{"a": null}` the spec's extractor distinguishes
the successful Null resolution of key `"a"` from the `keyNotFound` failure
of the absent key `"b"`, but `extract_content_path` returns the same
`None` for both — an absent key does not fail with a typed `KeyNotFound`;
it is indistinguishable from the Null success. -/
theorem C2_counterexample :
    specExtract (Json.obj [("a", Json.null)]) [.key "a"] = .resolved Json.null ∧
    specExtract (Json.obj [("a", Json.null)]) [.key "b"] = .keyNotFound ∧
    extract_content_path (Json.obj [("a", Json.null)]) "a" = PyResult.val Json.null ∧
    extract_content_path (Json.obj [("a", Json.null)]) "b" = PyResult.val Json.null :=
  ⟨rfl, rfl, rfl, rfl⟩

/-- C2 amended: extraction failures are returned values, never raised
exceptions — keying a value that is not a Mapping returns the error string
built from the caught `AttributeError`; an absent key of a Mapping returns
`None`, the same value produced by a key present with the literal value
Null (the two cases are not distinguished, and there is no typed
`KeyNotFound`); an Index segment applied to a Sequence with index ≥ length
returns the error string built from the caught `IndexError`. -/
theorem C2_untyped_failures_amended :
    (∀ (v : Json) (k : String) (ps : List String),
       pyIsDigit k = false → v.isObj = false →
       extractLoop (k :: ps) v = PyResult.err .attributeError) ∧
    (∀ (kvs : List (String × Json)) (k : String) (ps : List String),
       pyIsDigit k = false → lookupKV kvs k = none →
       extractLoop (k :: ps) (Json.obj kvs) = PyResult.val Json.null) ∧
    (∀ (kvs : List (String × Json)) (k : String) (ps : List String),
       pyIsDigit k = false → lookupKV kvs k = some Json.null →
       extractLoop (k :: ps) (Json.obj kvs) = PyResult.val Json.null) ∧
    (∀ (xs : List Json) (p : String) (ps : List String),
       pyIsDigit p = true → xs.length ≤ strToNat p →
       extractLoop (p :: ps) (Json.arr xs) = PyResult.err .indexError) := by
  refine ⟨?_, ?_, ?_, ?_⟩
  · intro v k ps hk hv
    exact extractLoop_key_nonobj v k ps hk hv
  · intro kvs k ps hk hl
    exact extractLoop_key_absent kvs k ps hk hl
  · intro kvs k ps hk hl
    simp [extractLoop, hk, hl, Json.isNull]
  · intro xs p ps hp hlen
    have hg : xs[strToNat p]? = none := by
      simpa using List.get?_eq_none.mpr hlen
    simp [extractLoop, hp, hg]

/-- Witness for C2 (amended): concrete instances of all four behaviours. -/
theorem C2_witness :
    extractLoop ["a"] (Json.num 1) = PyResult.err .attributeError ∧
    extractLoop ["b"] (Json.obj [("a", Json.null)]) = PyResult.val Json.null ∧
    extractLoop ["a"] (Json.obj [("a", Json.null)]) = PyResult.val Json.null ∧
    extractLoop ["5"] (Json.arr [Json.num 1]) = PyResult.err .indexError :=
  ⟨C2_untyped_failures_amended.1 _ _ _ rfl rfl,
   C2_untyped_failures_amended.2.1 _ _ _ rfl rfl,
   C2_untyped_failures_amended.2.2.1 _ _ _ rfl rfl,
   C2_untyped_failures_amended.2.2.2 _ _ _ rfl (by decide)⟩

/-- C6 counterexample: the empty path is not the identity —
`extract({"a": 5}, "")` returns `None`, not the root object. -/
theorem C6_counterexample :
    extract_content_path (Json.obj [("a", Json.num 5)]) "" = PyResult.val Json.null ∧
    PyResult.val Json.null ≠ PyResult.val (Json.obj [("a", Json.num 5)]) :=
  ⟨rfl, fun h => absurd (congrArg isNullRes h) (by decide)⟩

/-- C6 amended: the empty path splits into a single empty-string segment,
and extraction performs an empty-key lookup: a non-Mapping root returns
the `AttributeError` error string, a Mapping without the key `""` returns
`None`, and a Mapping storing a non-Null value under `""` returns that
value; the root is not returned unchanged. -/
theorem C6_empty_path_amended :
    pathParts "" = [""] ∧
    (∀ v : Json, v.isObj = false →
       extract_content_path v "" = PyResult.err .attributeError) ∧
    (∀ kvs : List (String × Json), lookupKV kvs "" = none →
       extract_content_path (Json.obj kvs) "" = PyResult.val Json.null) ∧
    (∀ (kvs : List (String × Json)) (x : Json),
       lookupKV kvs "" = some x → x.isNull = false →
       extract_content_path (Json.obj kvs) "" = PyResult.val x) := by
  refine ⟨rfl, ?_, ?_, ?_⟩
  · intro v hv
    exact extractLoop_key_nonobj v "" [] rfl hv
  · intro kvs hl
    exact extractLoop_key_absent kvs "" [] rfl hl
  · intro kvs x hl hx
    have hd : pyIsDigit "" = false := rfl
    show extractLoop [""] (Json.obj kvs) = PyResult.val x
    simp [extractLoop, hd, hl, hx]

/-- Witness for C6 (amended): concrete instances — a number root, a dict
root without empty key, and a dict storing `7` under the empty key. -/
theorem C6_witness :
    extract_content_path (Json.num 3) "" = PyResult.err .attributeError ∧
    extract_content_path (Json.obj [("a", Json.num 5)]) "" = PyResult.val Json.null ∧
    extract_content_path (Json.obj [("", Json.num 7)]) "" = PyResult.val (Json.num 7) :=
  ⟨C6_empty_path_amended.2.1 _ rfl,
   C6_empty_path_amended.2.2.1 _ rfl,
   C6_empty_path_amended.2.2.2 _ _ rfl rfl⟩

/-- C8: happy-path dotted and bracket extraction —
`extract({"a": {"b": 5}}, "a.b") = 5` and
`extract({"a": [1,2,3]}, "a[1]") = 2`, both through `extract_content_path`
of debug_api.py and through the inline loop of
response_format_analyzer.py. -/
theorem C8_happy_path :
    extract_content_path (Json.obj [("a", Json.obj [("b", Json.num 5)])]) "a.b"
      = PyResult.val (Json.num 5) ∧
    extract_content_path (Json.obj [("a", Json.arr [Json.num 1, Json.num 2, Json.num 3])]) "a[1]"
      = PyResult.val (Json.num 2) ∧
    analyzerExtract (Json.obj [("a", Json.obj [("b", Json.num 5)])]) "a.b" = Json.num 5 ∧
    analyzerExtract (Json.obj [("a", Json.arr [Json.num 1, Json.num 2, Json.num 3])]) "a[1]"
      = Json.num 2 :=
  ⟨rfl, rfl, rfl, rfl⟩

/-! ## Round-trip and fallback claims -/

/-- C4 counterexample: a choice whose `message.content` is the string
`"X"` but which already carries a different `text` field keeps that `text`
after normalization — extracting `"text"` yields `"Y"`, not `"X"`. -/
theorem C4_counterexample :
    extract_content_path
        (transform_response (Json.obj [("choices", Json.arr
          [Json.obj [("text", Json.str "Y"),
                     ("message", Json.obj [("content", Json.str "X")])]])]))
        "choices[0].message.content" = PyResult.val (Json.str "X") ∧
    extract_content_path
        (transform_response (Json.obj [("choices", Json.arr
          [Json.obj [("text", Json.str "Y"),
                     ("message", Json.obj [("content", Json.str "X")])]])]))
        "choices[0].text" ≠ PyResult.val (Json.str "X") :=
  ⟨rfl, fun h => absurd (congrArg resStr h) (by decide)⟩

/-- C4 amended: for every choice that has a string `"X"` at
`message.content` and lacks a `text` field, normalization backfills
`text := message.content`, so afterwards extracting `"text"` yields `"X"`
and extracting `"message.content"` still yields `"X"`. -/
theorem C4_roundtrip_amended :
    ∀ (cf mf : List (String × Json)) (X : String),
      lookupKV cf "message" = some (Json.obj mf) →
      lookupKV mf "content" = some (Json.str X) →
      hasKeyL cf "text" = false →
      extract_content_path (transformChoice (Json.obj cf)) "text"
        = PyResult.val (Json.str X) ∧
      extract_content_path (transformChoice (Json.obj cf)) "message.content"
        = PyResult.val (Json.str X) := by
  intro cf mf X hm hc ht
  have hcond : msgContentCond cf = true := by
    simp [msgContentCond, hm, hasKeyL, hc]
  have hget : getMsgContent cf = Json.str X := by
    simp [getMsgContent, hm, hc]
  have htc : transformChoice (Json.obj cf)
      = Json.obj (insertKV cf "text" (Json.str X)) := by
    simp [transformChoice, hcond, ht, hget]
  rw [htc]
  constructor
  · have hd : pyIsDigit "text" = false := rfl
    show extractLoop ["text"] (Json.obj (insertKV cf "text" (Json.str X)))
      = PyResult.val (Json.str X)
    simp [extractLoop, hd, lookup_insert_self, Json.isNull]
  · have hd1 : pyIsDigit "message" = false := rfl
    have hd2 : pyIsDigit "content" = false := rfl
    have hl : lookupKV (insertKV cf "text" (Json.str X)) "message"
        = some (Json.obj mf) := by
      rw [lookup_insert_ne cf "text" "message" (Json.str X) (by decide)]
      exact hm
    show extractLoop ["message", "content"] (Json.obj (insertKV cf "text" (Json.str X)))
      = PyResult.val (Json.str X)
    simp [extractLoop, hd1, hd2, hl, hc, Json.isNull]

/-- Witness for C4 (amended): the standard-format choice. -/
theorem C4_witness :
    extract_content_path
        (transformChoice (Json.obj [("message", Json.obj [("content", Json.str "Hello")])]))
        "text" = PyResult.val (Json.str "Hello") ∧
    extract_content_path
        (transformChoice (Json.obj [("message", Json.obj [("content", Json.str "Hello")])]))
        "message.content" = PyResult.val (Json.str "Hello") :=
  C4_roundtrip_amended _ _ _ rfl rfl rfl

/-- C5: a choice with neither a `text` field nor a well-formed
`message.content` gets both set to the placeholder `"No content
available"` and `message.role` set to `"assistant"`; in particular for
input `{"choices":[{"index":0}]}` the normalized response satisfies
`choices[0].text == choices[0].message.content == "No content
available"`. -/
theorem C5_fallback_placeholder :
    (∀ cf : List (String × Json),
       hasKeyL cf "text" = false →
       msgContentCond cf = false →
       ∃ res mf,
         transformChoice (Json.obj cf) = Json.obj res ∧
         lookupKV res "text" = some (Json.str "No content available") ∧
         lookupKV res "message" = some (Json.obj mf) ∧
         lookupKV mf "content" = some (Json.str "No content available") ∧
         lookupKV mf "role" = some (Json.str "assistant")) ∧
    extract_content_path
        (transform_response (Json.obj [("choices", Json.arr [Json.obj [("index", Json.num 0)]])]))
        "choices[0].text" = PyResult.val (Json.str "No content available") ∧
    extract_content_path
        (transform_response (Json.obj [("choices", Json.arr [Json.obj [("index", Json.num 0)]])]))
        "choices[0].message.content" = PyResult.val (Json.str "No content available") := by
  refine ⟨?_, rfl, rfl⟩
  intro cf htext hmsg
  refine ⟨insertKV (insertKV cf "text" (Json.str "No content available")) "message"
      (Json.obj [("role", Json.str "assistant"),
                 ("content", Json.str "No content available")]),
    [("role", Json.str "assistant"), ("content", Json.str "No content available")],
    ?_, ?_, ?_, rfl, rfl⟩
  · simp [transformChoice, htext, hmsg]
  · rw [lookup_insert_ne _ _ _ _ (by decide : "text" ≠ "message")]
    exact lookup_insert_self _ _ _
  · exact lookup_insert_self _ _ _

/-- Witness for C5: the fallback scenario choice `{"index": 0}`. -/
theorem C5_witness :
    ∃ res mf,
      transformChoice (Json.obj [("index", Json.num 0)]) = Json.obj res ∧
      lookupKV res "text" = some (Json.str "No content available") ∧
      lookupKV res "message" = some (Json.obj mf) ∧
      lookupKV mf "content" = some (Json.str "No content available") ∧
      lookupKV mf "role" = some (Json.str "assistant") :=
  C5_fallback_placeholder.1 _ rfl rfl

/-- C7: the normalizer never raises — it is a total function returning a
value on every input — and every element of a `choices` list that is not a
dict is skipped and appears unchanged at its position in the output. -/
theorem C7_never_raises_skips_nondict :
    (∀ r : Json, ∃ v : Json, transform_response r = v) ∧
    (∀ x : Json, x.isObj = false → transformChoice x = x) ∧
    (∀ (kvs : List (String × Json)) (xs : List Json),
       hasKeyL kvs sentinel = false →
       lookupKV kvs "choices" = some (Json.arr xs) →
       xs ≠ [] →
       ∃ kvs', transform_response (Json.obj kvs) = Json.obj kvs' ∧
         lookupKV kvs' "choices" = some (Json.arr (xs.map transformChoice)) ∧
         ∀ x ∈ xs, x.isObj = false → transformChoice x = x) := by
  refine ⟨fun r => ⟨transform_response r, rfl⟩, ?_, ?_⟩
  · intro x hx
    cases x with
    | obj cf => simp [Json.isObj] at hx
    | null => rfl
    | bool b => rfl
    | num n => rfl
    | str s => rfl
    | arr ys => rfl
  · intro kvs xs hs hc hne
    have hl : lookupKV (insertKV kvs sentinel (Json.bool true)) "choices"
        = some (Json.arr xs) := by
      rw [lookup_insert_ne kvs sentinel "choices" (Json.bool true) (by decide)]
      exact hc
    have htr : truthy (Json.arr xs) = true := by
      cases xs with
      | nil => exact absurd rfl hne
      | cons y ys => rfl
    refine ⟨insertKV (insertKV kvs sentinel (Json.bool true)) "choices"
        (Json.arr (xs.map transformChoice)), ?_, lookup_insert_self _ _ _, ?_⟩
    · simp [transform_response, hs, hl, htr]
    · intro x hx hobj
      cases x with
      | obj cf => simp [Json.isObj] at hobj
      | null => rfl
      | bool b => rfl
      | num n => rfl
      | str s => rfl
      | arr ys => rfl

/-- Witness for C7: a choices list holding a number and a string — both
non-dict elements survive normalization unchanged, in place. -/
theorem C7_witness :
    (∃ kvs', transform_response
        (Json.obj [("choices", Json.arr [Json.num 7, Json.str "x"])]) = Json.obj kvs' ∧
      lookupKV kvs' "choices"
        = some (Json.arr ([Json.num 7, Json.str "x"].map transformChoice)) ∧
      ∀ x ∈ [Json.num 7, Json.str "x"], x.isObj = false → transformChoice x = x) ∧
    transformChoice (Json.num 7) = Json.num 7 :=
  ⟨C7_never_raises_skips_nondict.2.2 _ _ rfl rfl (List.cons_ne_nil _ _),
   C7_never_raises_skips_nondict.2.1 _ rfl⟩

/-! ## Heap-explicit model of `transform_response`

The pure model above gives the value semantics of the returned object.
`response.copy()` is a *shallow* copy, so the returned object and the
input share the `choices` list and the choice dicts, and the per-choice
mutations happen in place.  To express that, the same source function is
embedded once more over an explicit heap: primitives are immutable
immediate values, dicts and lists are heap objects addressed by `Nat`
(their index in the heap list), and allocation appends at the end. -/

/-- An immutable Python primitive. -/
inductive Prim where
  | null
  | bool (b : Bool)
  | num (n : Int)
  | str (s : String)

/-- A runtime value: a primitive, or a reference to a heap object. -/
inductive Val where
  | prim (p : Prim)
  | ref (a : Nat)

/-- A mutable heap object: a dict (insertion-ordered fields) or a list. -/
inductive Obj where
  | dict (fields : List (String × Val))
  | list (elems : List Val)

/-- The heap: object at address `a` is the list entry at index `a`. -/
abbrev Heap := List Obj

def heapGet (h : Heap) (a : Nat) : Option Obj := h.get? a

def heapSet (h : Heap) (a : Nat) (o : Obj) : Heap := h.set a o

/-- Allocate a fresh object, returning the new heap and its address. -/
def allocH (h : Heap) (o : Obj) : Heap × Nat := (h ++ [o], h.length)

def lookupV : List (String × Val) → String → Option Val
  | [], _ => none
  | (k, v) :: rest, key => if k = key then some v else lookupV rest key

def hasKeyV (l : List (String × Val)) (k : String) : Bool :=
  (lookupV l k).isSome

def insertV : List (String × Val) → String → Val → List (String × Val)
  | [], key, val => [(key, val)]
  | (k, v) :: rest, key, val =>
    if k = key then (k, val) :: rest else (k, v) :: insertV rest key val

/-- Whether a value is an immediate primitive (not a heap reference). -/
def isPrimV : Val → Bool
  | .prim _ => true
  | .ref _ => false

/-- `isinstance(v, dict)` under the heap: the address and fields when `v`
refers to a dict object. -/
def derefDict (h : Heap) (v : Val) : Option (Nat × List (String × Val)) :=
  match v with
  | .ref a =>
    match heapGet h a with
    | some (.dict f) => some (a, f)
    | _ => none
  | _ => none

/-- Python truthiness of a runtime value under the heap. -/
def truthyV (h : Heap) (v : Val) : Bool :=
  match v with
  | .prim .null => false
  | .prim (.bool b) => b
  | .prim (.num n) => n != 0
  | .prim (.str s) => !s.isEmpty
  | .ref a =>
    match heapGet h a with
    | some (.dict f) => !f.isEmpty
    | some (.list e) => !e.isEmpty
    | none => false

/-- `choice["message"] = {"role": "assistant", "content": t}`: allocate the
fresh message dict, then rebind the `message` field of the choice at `a`. -/
def freshMessageH (h : Heap) (a : Nat) (cf : List (String × Val)) (t : Val) : Heap :=
  let pa := allocH h (.dict [("role", .prim (.str "assistant")), ("content", t)])
  heapSet pa.1 a (.dict (insertV cf "message" (.ref pa.2)))

/-- The fallback branch: `choice["text"] = ec` in place, then a fresh
message dict is allocated and bound to `choice["message"]`. -/
def fallbackH (h : Heap) (a : Nat) (cf : List (String × Val)) : Heap :=
  let cf1 := insertV cf "text" (.prim (.str "No content available"))
  let h1 := heapSet h a (.dict cf1)
  let pa := allocH h1 (.dict [("role", .prim (.str "assistant")),
                              ("content", .prim (.str "No content available"))])
  heapSet pa.1 a (.dict (insertV cf1 "message" (.ref pa.2)))

/-- The per-choice loop body over the heap: mutates the choice dict (and
possibly its message dict) in place; anything that is not a reference to a
dict is skipped. -/
def transformChoiceH (h : Heap) (v : Val) : Heap :=
  match v with
  | .ref a =>
    match heapGet h a with
    | some (.dict cf) =>
      match lookupV cf "message" with
      | some mv =>
        match derefDict h mv with
        | some pam =>
          if hasKeyV pam.2 "content" then
            -- message.content present: backfill text only when absent
            if hasKeyV cf "text" then h
            else heapSet h a (.dict (insertV cf "text"
              ((lookupV pam.2 "content").getD (.prim .null))))
          else if hasKeyV cf "text" then
            -- message is a dict without content: set content in place
            heapSet h pam.1 (.dict (insertV pam.2 "content"
              ((lookupV cf "text").getD (.prim .null))))
          else fallbackH h a cf
        | none =>
          -- message present but not a dict
          if hasKeyV cf "text" then
            freshMessageH h a cf ((lookupV cf "text").getD (.prim .null))
          else fallbackH h a cf
      | none =>
        if hasKeyV cf "text" then
          freshMessageH h a cf ((lookupV cf "text").getD (.prim .null))
        else fallbackH h a cf
    | _ => h
  | _ => h

/-- `transform_response` over the explicit heap: `response.copy()` is a
fresh dict object holding the SAME field list (shallow copy — field values,
including the `choices` reference, are shared); the sentinel is written to
the copy only; the per-choice loop mutates the shared choice dicts. -/
def transform_responseH (h : Heap) (v : Val) : Heap × Val :=
  match v with
  | .ref a =>
    match heapGet h a with
    | some (.dict kvs) =>
      if hasKeyV kvs sentinel then (h, v)
      else
        let pa := allocH h (.dict kvs)
        let t := insertV kvs sentinel (.prim (.bool true))
        let h2 := heapSet pa.1 pa.2 (.dict t)
        match lookupV t "choices" with
        | none => (h2, .ref pa.2)
        | some c =>
          if !truthyV h2 c then (h2, .ref pa.2)
          else
            match c with
            | .ref ca =>
              match heapGet h2 ca with
              | some (.list es) => (es.foldl transformChoiceH h2, .ref pa.2)
              | some (.dict _) => (h2, .ref pa.2)
              | none => (h2, v)
            | .prim (.str _) => (h2, .ref pa.2)
            | .prim _ => (h2, v)
    | _ => (h, v)
  | _ => (h, v)

/-! ## Association-list lemmas, `Val` version -/

theorem lookupV_insert_self (l : List (String × Val)) (k : String) (v : Val) :
    lookupV (insertV l k v) k = some v := by
  induction l with
  | nil => simp [insertV, lookupV]
  | cons p rest ih =>
    by_cases h : p.1 = k
    · simp [insertV, lookupV, h]
    · simp [insertV, lookupV, h, ih]

theorem lookupV_insert_ne (l : List (String × Val)) (k k' : String) (v : Val)
    (h : k' ≠ k) : lookupV (insertV l k v) k' = lookupV l k' := by
  have h2 : k ≠ k' := Ne.symm h
  induction l with
  | nil => simp [insertV, lookupV, h2]
  | cons p rest ih =>
    obtain ⟨pk, pv⟩ := p
    by_cases hp : pk = k
    · subst hp
      simp [insertV, lookupV, h2]
    · by_cases hq : pk = k'
      · simp [insertV, lookupV, hp, hq, h]
      · simp [insertV, lookupV, hp, hq, ih]

theorem hasKeyV_insert_self (l : List (String × Val)) (k : String) (v : Val) :
    hasKeyV (insertV l k v) k = true := by
  simp [hasKeyV, lookupV_insert_self]

theorem hasKeyV_insert_ne (l : List (String × Val)) (k k' : String) (v : Val)
    (h : k' ≠ k) : hasKeyV (insertV l k v) k' = hasKeyV l k' := by
  simp [hasKeyV, lookupV_insert_ne l k k' v h]

/-- In a dict whose fields are all primitives, every lookup result is a
primitive. -/
theorem lookupV_all_prim (cf : List (String × Val)) (k : String)
    (h : ∀ p ∈ cf, isPrimV p.2 = true) :
    ∀ v, lookupV cf k = some v → isPrimV v = true := by
  induction cf with
  | nil => intro v hv; simp [lookupV] at hv
  | cons p rest ih =>
    intro v hv
    by_cases hp : p.1 = k
    · simp [lookupV, hp] at hv
      subst hv
      exact h p (List.mem_cons_self p rest)
    · simp [lookupV, hp] at hv
      exact ih (fun q hq => h q (List.mem_cons_of_mem p hq)) v hv

/-- A primitive never dereferences to a dict. -/
theorem derefDict_prim (h : Heap) (v : Val) (hp : isPrimV v = true) :
    derefDict h v = none := by
  cases v with
  | prim p => rfl
  | ref a => simp [isPrimV] at hp

/-- On a heap `[A, B, choice-dict, t]` whose choice dict holds only
primitive field values, the per-choice step rewrites only address 2 (and
allocates the fresh message dict at address 4): the result always carries
`text` and `message` fields. -/
theorem transformChoiceH_prims (A B t : Obj) (cf : List (String × Val))
    (hprim : ∀ p ∈ cf, isPrimV p.2 = true) :
    ∃ cf' M, transformChoiceH [A, B, Obj.dict cf, t] (Val.ref 2)
        = [A, B, Obj.dict cf', t, M] ∧
      hasKeyV cf' "text" = true ∧ hasKeyV cf' "message" = true := by
  cases hm : lookupV cf "message" with
  | some mv =>
    have hmp : isPrimV mv = true := lookupV_all_prim cf "message" hprim mv hm
    have hd : derefDict [A, B, Obj.dict cf, t] mv = none := derefDict_prim _ _ hmp
    by_cases htx : hasKeyV cf "text" = true
    · refine ⟨insertV cf "message" (Val.ref 4),
        Obj.dict [("role", Val.prim (Prim.str "assistant")),
                  ("content", (lookupV cf "text").getD (Val.prim Prim.null))],
        ?_, ?_, hasKeyV_insert_self cf "message" _⟩
      · simp [transformChoiceH, heapGet, hm, hd, htx, freshMessageH, allocH, heapSet]
      · rw [hasKeyV_insert_ne cf "message" "text" _ (by decide)]
        exact htx
    · rw [Bool.not_eq_true] at htx
      refine ⟨insertV (insertV cf "text" (Val.prim (Prim.str "No content available")))
          "message" (Val.ref 4),
        Obj.dict [("role", Val.prim (Prim.str "assistant")),
                  ("content", Val.prim (Prim.str "No content available"))],
        ?_, ?_, hasKeyV_insert_self _ "message" _⟩
      · simp [transformChoiceH, heapGet, hm, hd, htx, fallbackH, allocH, heapSet]
      · rw [hasKeyV_insert_ne _ "message" "text" _ (by decide)]
        exact hasKeyV_insert_self cf "text" _
  | none =>
    by_cases htx : hasKeyV cf "text" = true
    · refine ⟨insertV cf "message" (Val.ref 4),
        Obj.dict [("role", Val.prim (Prim.str "assistant")),
                  ("content", (lookupV cf "text").getD (Val.prim Prim.null))],
        ?_, ?_, hasKeyV_insert_self cf "message" _⟩
      · simp [transformChoiceH, heapGet, hm, htx, freshMessageH, allocH, heapSet]
      · rw [hasKeyV_insert_ne cf "message" "text" _ (by decide)]
        exact htx
    · rw [Bool.not_eq_true] at htx
      refine ⟨insertV (insertV cf "text" (Val.prim (Prim.str "No content available")))
          "message" (Val.ref 4),
        Obj.dict [("role", Val.prim (Prim.str "assistant")),
                  ("content", Val.prim (Prim.str "No content available"))],
        ?_, ?_, hasKeyV_insert_self _ "message" _⟩
      · simp [transformChoiceH, heapGet, hm, htx, fallbackH, allocH, heapSet]
      · rw [hasKeyV_insert_ne _ "message" "text" _ (by decide)]
        exact hasKeyV_insert_self cf "text" _

/-- C9: the copy is shallow — for a response dict (address 0) without the
sentinel whose `choices` field references the list at address 1 holding
the choice dict at address 2 (primitive-valued fields), `transform_response`
returns a fresh dict (address 3): the input dict is bit-for-bit unchanged
(in particular it never receives the sentinel), the copy carries the
sentinel and the SAME `choices` reference, the list still holds the same
choice object, and the `text`/`message` fields written by the normalizer
land in that shared choice dict — so they are visible through the caller's
original input object.  The second half corroborates this concretely for
`{"choices": [{"index": 0}]}`. -/
theorem C9_shallow_copy_aliasing :
    (∀ kvs cf : List (String × Val),
      hasKeyV kvs sentinel = false →
      lookupV kvs "choices" = some (Val.ref 1) →
      (∀ p ∈ cf, isPrimV p.2 = true) →
      (transform_responseH [Obj.dict kvs, Obj.list [Val.ref 2], Obj.dict cf]
          (Val.ref 0)).2 = Val.ref 3 ∧
      ∃ cf',
        heapGet (transform_responseH [Obj.dict kvs, Obj.list [Val.ref 2], Obj.dict cf]
            (Val.ref 0)).1 0 = some (Obj.dict kvs) ∧
        heapGet (transform_responseH [Obj.dict kvs, Obj.list [Val.ref 2], Obj.dict cf]
            (Val.ref 0)).1 3
          = some (Obj.dict (insertV kvs sentinel (Val.prim (Prim.bool true)))) ∧
        heapGet (transform_responseH [Obj.dict kvs, Obj.list [Val.ref 2], Obj.dict cf]
            (Val.ref 0)).1 1 = some (Obj.list [Val.ref 2]) ∧
        heapGet (transform_responseH [Obj.dict kvs, Obj.list [Val.ref 2], Obj.dict cf]
            (Val.ref 0)).1 2 = some (Obj.dict cf') ∧
        hasKeyV cf' "text" = true ∧
        hasKeyV cf' "message" = true) ∧
    transform_responseH
        [Obj.dict [("choices", Val.ref 1)], Obj.list [Val.ref 2],
         Obj.dict [("index", Val.prim (Prim.num 0))]] (Val.ref 0)
      = ([Obj.dict [("choices", Val.ref 1)],
          Obj.list [Val.ref 2],
          Obj.dict [("index", Val.prim (Prim.num 0)),
                    ("text", Val.prim (Prim.str "No content available")),
                    ("message", Val.ref 4)],
          Obj.dict [("choices", Val.ref 1), (sentinel, Val.prim (Prim.bool true))],
          Obj.dict [("role", Val.prim (Prim.str "assistant")),
                    ("content", Val.prim (Prim.str "No content available"))]],
         Val.ref 3) := by
  constructor
  · intro kvs cf hs hc hprim
    have hlt : lookupV (insertV kvs sentinel (Val.prim (Prim.bool true))) "choices"
        = some (Val.ref 1) := by
      rw [lookupV_insert_ne kvs sentinel "choices" _ (by decide)]
      exact hc
    have hR : transform_responseH [Obj.dict kvs, Obj.list [Val.ref 2], Obj.dict cf]
          (Val.ref 0)
        = (transformChoiceH
            [Obj.dict kvs, Obj.list [Val.ref 2], Obj.dict cf,
             Obj.dict (insertV kvs sentinel (Val.prim (Prim.bool true)))] (Val.ref 2),
           Val.ref 3) := by
      simp [transform_responseH, heapGet, heapSet, allocH, hs, hlt, truthyV]
    rw [hR]
    obtain ⟨cf', M, hT, ht1, ht2⟩ :=
      transformChoiceH_prims (Obj.dict kvs) (Obj.list [Val.ref 2])
        (Obj.dict (insertV kvs sentinel (Val.prim (Prim.bool true)))) cf hprim
    rw [hT]
    exact ⟨rfl, cf', rfl, rfl, rfl, rfl, ht1, ht2⟩
  · rfl

/-- Witness for C9: the general statement applied at the concrete
single-choice heap of the fallback scenario. -/
theorem C9_witness :
    (transform_responseH
        [Obj.dict [("choices", Val.ref 1)], Obj.list [Val.ref 2],
         Obj.dict [("index", Val.prim (Prim.num 0))]] (Val.ref 0)).2 = Val.ref 3 ∧
    ∃ cf',
      heapGet (transform_responseH
          [Obj.dict [("choices", Val.ref 1)], Obj.list [Val.ref 2],
           Obj.dict [("index", Val.prim (Prim.num 0))]] (Val.ref 0)).1 0
        = some (Obj.dict [("choices", Val.ref 1)]) ∧
      heapGet (transform_responseH
          [Obj.dict [("choices", Val.ref 1)], Obj.list [Val.ref 2],
           Obj.dict [("index", Val.prim (Prim.num 0))]] (Val.ref 0)).1 3
        = some (Obj.dict (insertV [("choices", Val.ref 1)] sentinel
            (Val.prim (Prim.bool true)))) ∧
      heapGet (transform_responseH
          [Obj.dict [("choices", Val.ref 1)], Obj.list [Val.ref 2],
           Obj.dict [("index", Val.prim (Prim.num 0))]] (Val.ref 0)).1 1
        = some (Obj.list [Val.ref 2]) ∧
      heapGet (transform_responseH
          [Obj.dict [("choices", Val.ref 1)], Obj.list [Val.ref 2],
           Obj.dict [("index", Val.prim (Prim.num 0))]] (Val.ref 0)).1 2
        = some (Obj.dict cf') ∧
      hasKeyV cf' "text" = true ∧
      hasKeyV cf' "message" = true :=
  C9_shallow_copy_aliasing.1 [("choices", Val.ref 1)] [("index", Val.prim (Prim.num 0))]
    rfl rfl (by intro p hp; simp at hp; rw [hp]; rfl)
